import Mathlib

/-!
Formal model of the simulation and dispatch engine of the portfolio-loc-maxxer
repository, and proofs about its specified properties.

Numeric model: IEEE double-precision values are modelled as exact rationals
(`ℚ`), and JavaScript / AssemblyScript division as rational division.  The
float constants 0.5 and 0.9 used for percentile indices are modelled as the
exact rationals they denote, and `i32(x)` truncation of a nonnegative float
product as natural floor division.  Monte-Carlo randomness is modelled by
passing the sequence of drawn monthly return factors explicitly, so every
function of the model is a deterministic function of its inputs, exactly as
the source is a deterministic function of its inputs and its random draws.
-/

namespace Sched

/-- Scalar parameters of `generateCashFlowSchedule(loanAmount, monthlyRate,
payment, monthlyBudget, months)` from `scripts/integration.js`. -/
structure Params where
  loanAmount : ℚ
  monthlyRate : ℚ
  payment : ℚ
  monthlyBudget : ℚ
deriving DecidableEq

/-- Value of the loop variable `currentDebt` of `generateCashFlowSchedule`
after the iterations for months `1 .. t` have run (`scripts/integration.js`,
lines 75-99).  Month `t + 1` updates it as the source does: if debt remains,
compute `interest = currentDebt * monthlyRate` and
`principalReduction = payment - interest`; at the final month, or when
`principalReduction >= currentDebt`, the debt is forced to `0`; otherwise
`currentDebt -= principalReduction`.  With no debt it is left unchanged. -/
def debtState (p : Params) (months : ℕ) : ℕ → ℚ
  | 0 => p.loanAmount
  | t + 1 =>
    let d := debtState p months t
    if 0 < d then
      let interest := d * p.monthlyRate
      let principalReduction := p.payment - interest
      if t + 1 = months ∨ d ≤ principalReduction then 0
      else d - principalReduction
    else d

/-- Entry `t` of the `depositPath` array built by `generateCashFlowSchedule`:
`depositPath[0] = 0` (source line 78, "no deposits at initial time"), and for
month `t + 1` the amount pushed by the corresponding branch of the loop body:
`monthlyBudget - (currentDebt + interest)` in the forced-payoff branch,
`monthlyBudget - payment` in the normal branch, and the full `monthlyBudget`
once the debt is gone. -/
def depositPath (p : Params) (months : ℕ) : ℕ → ℚ
  | 0 => 0
  | t + 1 =>
    let d := debtState p months t
    if 0 < d then
      let interest := d * p.monthlyRate
      let principalReduction := p.payment - interest
      if t + 1 = months ∨ d ≤ principalReduction then
        p.monthlyBudget - (d + interest)
      else p.monthlyBudget - p.payment
    else p.monthlyBudget

/-- Entry `t` of the `debtPath` array built by `generateCashFlowSchedule`:
`debtPath[0] = loanAmount` (source line 76), and for `t ≥ 1` the value
`Math.max(0, currentDebt)` pushed at the end of the month-`t` iteration
(source line 102). -/
def debtPath (p : Params) (months : ℕ) : ℕ → ℚ
  | 0 => p.loanAmount
  | t + 1 => max 0 (debtState p months (t + 1))

end Sched

namespace Legacy

/-- Initial balance of one simulated path in `runSimulationLegacy`
(`scripts/script.js` line 587: `let assets = initialEquity + loan;`). -/
def initialAssets (initialEquity loan : ℚ) : ℚ := initialEquity + loan

/-- Balance of a path after month `t` when no margin call has interrupted it:
the month-`t` update of the inner loop of `runSimulationLegacy`
(`scripts/script.js` lines 592-597), with `rets t` the geometric-Brownian
return factor drawn for month `t`:
`assets = (assets * ret) + depositPath[t]`. -/
def bal (A : ℚ) (dep rets : ℕ → ℚ) : ℕ → ℚ
  | 0 => A
  | t + 1 => bal A dep rets t * rets (t + 1) + dep (t + 1)

/-- The month loop of one path of `runSimulationLegacy` (`scripts/script.js`
lines 591-606), processing `n` remaining months starting at month `t` with
current balance `a`.  Each month updates the balance, then checks
`debtPath[t] / assets > marginCallLTV`; on a breach the loop breaks, which we
record as `(assets, some t)`; otherwise it continues, ending as
`(assets, none)` after the last month. -/
def runPathAux (debt dep rets : ℕ → ℚ) (LTV : ℚ) : ℚ → ℕ → ℕ → ℚ × Option ℕ
  | a, _, 0 => (a, none)
  | a, t, n + 1 =>
    if LTV < debt t / (a * rets t + dep t) then (a * rets t + dep t, some t)
    else runPathAux debt dep rets LTV (a * rets t + dep t) (t + 1) n

/-- One full path of `runSimulationLegacy`: months `1 .. months` starting from
`initialAssets initialEquity loan`. -/
def runPath (initialEquity loan : ℚ) (debt dep rets : ℕ → ℚ) (LTV : ℚ)
    (months : ℕ) : ℚ × Option ℕ :=
  runPathAux debt dep rets LTV (initialAssets initialEquity loan) 1 months

/-- Contribution of one path to the survivor wealth array
(`scripts/script.js` lines 608-617): a ruined path contributes nothing; a
surviving path contributes
`(assets - debtPath[months]) / (1 + inflationRate) ^ years`. -/
def pathResult (initialEquity loan : ℚ) (debt dep rets : ℕ → ℚ)
    (LTV infl : ℚ) (years months : ℕ) : Option ℚ :=
  match runPath initialEquity loan debt dep rets LTV months with
  | (_, some _) => none
  | (a, none) => some ((a - debt months) / (1 + infl) ^ years)

/-- Margin-call condition of the source at month `m`
(`scripts/script.js` line 601: `debt / assets > marginCallLTV`), expressed
against the uninterrupted balance sequence. -/
def breach (A : ℚ) (debt dep rets : ℕ → ℚ) (LTV : ℚ) (m : ℕ) : Prop :=
  LTV < debt m / bal A dep rets m

instance (A : ℚ) (debt dep rets : ℕ → ℚ) (LTV : ℚ) (m : ℕ) :
    Decidable (breach A debt dep rets LTV m) := by
  unfold breach; infer_instance

/-- Ruin condition as the specification states it at month `m`:
positive debt whose ratio to the updated balance strictly exceeds the
threshold. -/
def specBreach (A : ℚ) (debt dep rets : ℕ → ℚ) (LTV : ℚ) (m : ℕ) : Prop :=
  0 < debt m ∧ LTV < debt m / bal A dep rets m

instance (A : ℚ) (debt dep rets : ℕ → ℚ) (LTV : ℚ) (m : ℕ) :
    Decidable (specBreach A debt dep rets LTV m) := by
  unfold specBreach; infer_instance

end Legacy

namespace Engine

/-- Percentile index `i32(f64(count) * p)` used by `assembly/index.ts`
(lines 158-159 and 245-249), for a percentile `p = num / den`; modelled in
exact arithmetic as the natural floor `count * num / den`. -/
def pctIdx (count num den : ℕ) : ℕ := count * num / den

/-- Ascending sort of a list of wealth values, modelling
`StaticArray<f64>.sort()` / `Array.sort((a, b) => a - b)`. -/
def sortQ (l : List ℚ) : List ℚ := List.insertionSort (· ≤ ·) l

/-- Balance of one benchmark path of `calculateBenchmark`
(`assembly/index.ts` lines 141-148) after `t` loop iterations, with `ret t`
the return factor drawn at iteration `t`:
`assets = (assets * ret) + monthlyBudget`.  The loop has no margin-call or
ruin check of any kind. -/
def benchAssets (initialEquity monthlyBudget : ℚ) (ret : ℕ → ℚ) : ℕ → ℚ
  | 0 => initialEquity
  | t + 1 => benchAssets initialEquity monthlyBudget ret t * ret t + monthlyBudget

/-- The `results` array of `calculateBenchmark` (`assembly/index.ts` lines
138-152): one real-wealth value per simulated path,
`assets / (1 + inflation) ^ years`, with `ret s t` the draw of path `s`,
month `t`. -/
def benchWealths (initialEquity monthlyBudget infl : ℚ) (years months : ℕ)
    (ret : ℕ → ℕ → ℚ) (simCount : ℕ) : List ℚ :=
  (List.range simCount).map fun s =>
    benchAssets initialEquity monthlyBudget (ret s) months / (1 + infl) ^ years

/-- The scenario block written by `calculateBenchmark` (`assembly/index.ts`
lines 154-183), as the list of values written in order:
`paymentAmount = 0`, `surplusAmount = monthlyBudget`, `survivalRate = 100`,
median, p90, expected, `benchmarkPercentDiff = 0`, `f64(simCount)`, then the
sorted results.  Median and p90 read the sorted array at
`i32(simCount * 0.5)` and `i32(simCount * 0.9)` with no bounds check; the
model totalises that read with default 0 (for `simCount = 0` the real code
reads out of bounds, which `benchMedianRead` below makes explicit). -/
def benchBlock (initialEquity monthlyBudget infl : ℚ) (years months : ℕ)
    (ret : ℕ → ℕ → ℚ) (simCount : ℕ) : List ℚ :=
  let results := sortQ (benchWealths initialEquity monthlyBudget infl years months ret simCount)
  let median := results.getD (pctIdx simCount 1 2) 0
  let p90 := results.getD (pctIdx simCount 9 10) 0
  let expected := results.sum / (simCount : ℚ)
  [0, monthlyBudget, 100, median, p90, expected, 0, (simCount : ℚ)] ++ results

/-- The exact array read performed for the benchmark median
(`assembly/index.ts` line 158: `results[i32(simCount * 0.5)]`), returning
`none` when the index is out of bounds of the results array. -/
def benchMedianRead (sorted : List ℚ) (simCount : ℕ) : Option ℚ :=
  sorted.get? (pctIdx simCount 1 2)

/-- State of one leveraged path of `calculateLeveragedStrategy`
(`assembly/index.ts` lines 216-234) after `t` loop iterations:
assets, debt, and whether the path has been ruined (the `break` makes ruin
sticky).  Each iteration performs `assets = assets * ret + surplusAmount`,
`debt = debt * (1 + monthlyRate) - paymentAmount`, then ruins the path when
`debt / assets > marginCallLTV`. -/
def levPath (initialAssets loanAmount payment surplus rate LTV : ℚ)
    (ret : ℕ → ℚ) : ℕ → ℚ × ℚ × Bool
  | 0 => (initialAssets, loanAmount, false)
  | t + 1 =>
    let p := levPath initialAssets loanAmount payment surplus rate LTV ret t
    if p.2.2 then p
    else
      let a := p.1 * ret t + surplus
      let d := p.2.1 * (1 + rate) - payment
      if LTV < d / a then (a, d, true) else (a, d, false)

/-- Survivor wealth values of `calculateLeveragedStrategy`
(`assembly/index.ts` lines 214-238) in path order: each non-ruined path
appends `(assets - debt) / (1 + inflation) ^ years`. -/
def levSurvivorWealths (initialAssets loanAmount payment surplus rate LTV infl : ℚ)
    (years months : ℕ) (ret : ℕ → ℕ → ℚ) (simCount : ℕ) : List ℚ :=
  (List.range simCount).filterMap fun s =>
    let p := levPath initialAssets loanAmount payment surplus rate LTV (ret s) months
    if p.2.2 then none
    else some ((p.1 - p.2.1) / (1 + infl) ^ years)

/-- Contents of the `results` StaticArray of `calculateLeveragedStrategy`
after the simulation loop (`assembly/index.ts` lines 213-238): the survivor
wealths occupy the first `survivorCount` slots and the remaining
`simCount - survivorCount` slots keep their zero initialisation. -/
def levResultsArray (survivors : List ℚ) (simCount : ℕ) : List ℚ :=
  survivors ++ List.replicate (simCount - survivors.length) 0

/-- The scenario block written by `calculateLeveragedStrategy`
(`assembly/index.ts` lines 240-285) given the survivor wealth list.  With at
least one survivor the source sorts the whole `simCount`-sized `results`
array (zero padding included), then reads median and p90 at the clamped
indices `i32(survivorCount * 0.5)` and `i32(survivorCount * 0.9)`, sums the
first `survivorCount` entries of the sorted array for the expected value,
and writes the first `survivorCount` sorted entries as the wealth array.
With no survivors it writes the block
`[paymentAmount, surplusAmount, 0, 0, 0, 0, 0, 0]`. -/
def levBlock (payment surplus : ℚ) (survivors : List ℚ) (simCount : ℕ) : List ℚ :=
  let n := survivors.length
  if 0 < n then
    let sorted := sortQ (levResultsArray survivors simCount)
    let medianIdx := pctIdx n 1 2
    let median := sorted.getD (if medianIdx < n then medianIdx else n - 1) 0
    let p90Idx := pctIdx n 9 10
    let p90 := sorted.getD (if p90Idx < n then p90Idx else n - 1) 0
    let expected := (sorted.take n).sum / (n : ℚ)
    [payment, surplus, (n : ℚ) / (simCount : ℚ) * 100, median, p90, expected, 0, (n : ℚ)]
      ++ sorted.take n
  else [payment, surplus, 0, 0, 0, 0, 0, 0]

/-- Full `calculateLeveragedStrategy` scenario block from raw inputs. -/
def calculateLeveragedStrategy (loanAmount initialAssets payment surplus rate LTV infl : ℚ)
    (years months : ℕ) (ret : ℕ → ℕ → ℚ) (simCount : ℕ) : List ℚ :=
  levBlock payment surplus
    (levSurvivorWealths initialAssets loanAmount payment surplus rate LTV infl years months ret simCount)
    simCount

end Engine

namespace BufModel

/-- Capacity of the pre-allocated output buffer of `assembly/index.ts`
(line 18: `new StaticArray<f64>(800000)`). -/
def CAP : ℕ := 800000

/-- Write-position state of `runSimulation`: the running `outputIdx`, whether
any single write has targeted an index at or beyond `CAP`, and whether any
wealth-array loop has stopped early because of the
`if (outputIdx >= 800000) break` guard. -/
structure WState where
  idx : ℕ
  overrun : Bool
  truncated : Bool
deriving DecidableEq

/-- Effect of `k` consecutive unguarded `outputBuffer[outputIdx++] = ...`
writes (header and scenario scalar fields carry no bounds check in the
source): the indices `idx .. idx + k - 1` are written, so an overrun occurs
exactly when `idx + k > CAP`. -/
def writeScalars (st : WState) (k : ℕ) : WState :=
  { idx := st.idx + k
    overrun := st.overrun || decide (CAP < st.idx + k)
    truncated := st.truncated }

/-- Effect of a wealth-array write loop of `n` values
(`assembly/index.ts` lines 179-182 and 271-274): each iteration first checks
`outputIdx >= 800000` and breaks, so exactly `min n (CAP - idx)` values are
written (never past `CAP`), and the data is silently truncated when fewer
than `n` fit. -/
def writeArray (st : WState) (n : ℕ) : WState :=
  let w := min n (CAP - st.idx)
  { idx := st.idx + w
    overrun := st.overrun
    truncated := st.truncated || decide (w < n) }

/-- Writes performed by one leveraged scenario with `survivors` surviving
paths: 8 unguarded scalar fields, then the guarded wealth-array loop when
there is at least one survivor (`assembly/index.ts` lines 240-285). -/
def scenarioWrites (st : WState) (survivors : ℕ) : WState :=
  if 0 < survivors then writeArray (writeScalars st 8) survivors
  else writeScalars st 8

/-- Write-position trace of `runSimulation` (`assembly/index.ts` lines
39-121): 2 unguarded header writes, the benchmark block (8 unguarded scalars
plus a guarded array loop of `baselineCount` values), one scenario block per
leveraged strategy, and finally the bounds check
`if (outputIdx > 800000)` which sets the error status `1`; otherwise the
status written at the start, `0`, stands.  Returns the final write state and
the status code. -/
def runSimulationWrites (baselineCount : ℕ) (survivorCounts : List ℕ) :
    WState × ℕ :=
  let st0 : WState := ⟨0, false, false⟩
  let st1 := writeArray (writeScalars (writeScalars st0 2) 8) baselineCount
  let stF := survivorCounts.foldl scenarioWrites st1
  (stF, if CAP < stF.idx then 1 else 0)

end BufModel

namespace Protocol

/-- Scalar fields of a simulation request, in the order of the fixed input
buffer offsets 0-14 written by `scripts/simulation.worker.js`
(`inputView[0] = inputs.loanAmount;` through
`inputView[14] = inputs.baselineSimulationCount`). -/
structure SimRequest where
  loanAmount : ℚ
  interestRate : ℚ
  volatility : ℚ
  growth : ℚ
  inflation : ℚ
  monthlyBudget : ℚ
  minPayment : ℚ
  maxPayment : ℚ
  simulationCount : ℚ
  years : ℚ
  marginCallLTV : ℚ
  initialAssets : ℚ
  initialEquity : ℚ
  numStrategies : ℚ
  baselineSimulationCount : ℚ
deriving DecidableEq

/-- Marshalling of a request into the fixed-offset input buffer, exactly as
`scripts/simulation.worker.js` writes `inputView[0] .. inputView[14]`. -/
def writeInputBuffer (r : SimRequest) : ℕ → ℚ
  | 0 => r.loanAmount
  | 1 => r.interestRate
  | 2 => r.volatility
  | 3 => r.growth
  | 4 => r.inflation
  | 5 => r.monthlyBudget
  | 6 => r.minPayment
  | 7 => r.maxPayment
  | 8 => r.simulationCount
  | 9 => r.years
  | 10 => r.marginCallLTV
  | 11 => r.initialAssets
  | 12 => r.initialEquity
  | 13 => r.numStrategies
  | 14 => r.baselineSimulationCount
  | _ => 0

/-- Unmarshalling of the input buffer at the same fixed offsets, exactly as
`runSimulation` reads `inputBuffer[0] .. inputBuffer[14]`
(`assembly/index.ts` lines 43-57). -/
def readInputBuffer (buf : ℕ → ℚ) : SimRequest :=
  ⟨buf 0, buf 1, buf 2, buf 3, buf 4, buf 5, buf 6, buf 7, buf 8, buf 9,
    buf 10, buf 11, buf 12, buf 13, buf 14⟩

/-- Scenario fields recovered by `SimulationAdapter.readScenario`
(`scripts/adapter.js` lines 175-211). -/
structure ScenarioData where
  paymentAmount : ℚ
  surplusAmount : ℚ
  survivalRate : ℚ
  medianWealth : ℚ
  p90Wealth : ℚ
  expectedWealth : ℚ
  benchmarkPercentDiff : ℚ
  finalWealthArray : List ℚ
deriving DecidableEq

/-- A scenario block in the output layout: the 7 scalar fields, the wealth
count as a float, then the wealth values — the write order of
`calculateBenchmark` and `calculateLeveragedStrategy`
(`assembly/index.ts` lines 154-183 and 251-274), with the percent-diff slot
written as the placeholder `0`. -/
def scenarioBlockList (payment surplus survival median p90 expected : ℚ)
    (wealth : List ℚ) : List ℚ :=
  [payment, surplus, survival, median, p90, expected, 0, (wealth.length : ℚ)] ++ wealth

/-- The wealth-array length recovered by `SimulationAdapter.readScenario`:
`Math.floor(buffer[pos + 7])`, clamped to 0 from below since a negative
length runs the read loop zero times. -/
def scenarioLen (buf : List ℚ) (startPos : ℕ) : ℕ :=
  (Int.floor (buf.getD (startPos + 7) 0)).toNat

/-- The parse performed by `SimulationAdapter.readScenario`
(`scripts/adapter.js` lines 175-211): seven scalar reads at consecutive
positions, then `Math.floor` of the length field, then that many wealth
values; returns the parsed data and `nextPos`. -/
def readScenario (buf : List ℚ) (startPos : ℕ) : ScenarioData × ℕ :=
  (⟨buf.getD startPos 0, buf.getD (startPos + 1) 0, buf.getD (startPos + 2) 0,
    buf.getD (startPos + 3) 0, buf.getD (startPos + 4) 0, buf.getD (startPos + 5) 0,
    buf.getD (startPos + 6) 0,
    (List.range (scenarioLen buf startPos)).map fun i => buf.getD (startPos + 8 + i) 0⟩,
    startPos + 8 + scenarioLen buf startPos)

end Protocol

namespace Agg

/-- The per-strategy fields relevant to benchmark linking, as initialised by
`unmarshalStrategyResults` (`scripts/integration.js` lines 358-397):
`benchmarkPercentDiff` starts at the defined default `0`. -/
structure StrategyData where
  expectedWealth : ℚ
  benchmarkPercentDiff : ℚ
deriving DecidableEq

/-- Strategy data as unmarshalled, before aggregation post-processing:
percent-diff at its default `0`. -/
def initStrategy (expected : ℚ) : StrategyData := ⟨expected, 0⟩

/-- Post-processing of `aggregateWorkerResults`
(`scripts/integration.js` lines 339-352): only when the benchmark expected
wealth is strictly positive, every strategy receives
`(expected - benchmarkExpected) / benchmarkExpected * 100`; otherwise the
strategies are left untouched. -/
def postProcess (benchmarkExpected : ℚ) (strategies : List StrategyData) :
    List StrategyData :=
  if 0 < benchmarkExpected then
    strategies.map fun s =>
      { s with benchmarkPercentDiff :=
          (s.expectedWealth - benchmarkExpected) / benchmarkExpected * 100 }
  else strategies

end Agg

namespace Sched

theorem debtState_nonneg (p : Params) (months : ℕ) (hl : 0 ≤ p.loanAmount) :
    ∀ t, 0 ≤ debtState p months t := by
  intro t
  induction t with
  | zero => exact hl
  | succ t ih =>
    simp only [debtState]
    by_cases hd : 0 < debtState p months t
    · simp only [hd, if_true]
      by_cases hc : t + 1 = months ∨
          debtState p months t ≤ p.payment - debtState p months t * p.monthlyRate
      · simp [hc]
      · simp only [hc, if_false]
        rw [not_or] at hc
        have := not_le.mp hc.2
        linarith
    · simpa [hd] using ih

theorem debtPath_eq_debtState (p : Params) (months : ℕ)
    (hl : 0 ≤ p.loanAmount) : ∀ t, debtPath p months t = debtState p months t := by
  intro t
  cases t with
  | zero => rfl
  | succ t => exact max_eq_right (debtState_nonneg p months hl (t + 1))

theorem debtPath_nonneg_of_one_le (p : Params) (months : ℕ) :
    ∀ t, 1 ≤ t → 0 ≤ debtPath p months t := by
  intro t ht
  cases t with
  | zero => omega
  | succ t => exact le_max_left 0 _

theorem debtPath_final_eq_zero (p : Params) (months : ℕ) (hm : 1 ≤ months) :
    debtPath p months months = 0 := by
  obtain ⟨m, rfl⟩ : ∃ m, months = m + 1 := ⟨months - 1, by omega⟩
  simp only [debtPath, debtState]
  by_cases hd : 0 < debtState p (m + 1) m
  · simp [hd]
  · have : debtState p (m + 1) m ≤ 0 := not_lt.mp hd
    simp only [hd, if_false]
    exact max_eq_left this

theorem debtState_succ_payoff (p : Params) (months k : ℕ)
    (hpos : 0 < debtState p months k)
    (hc : k + 1 = months ∨
      debtState p months k ≤ p.payment - debtState p months k * p.monthlyRate) :
    debtState p months (k + 1) = 0 := by
  simp [debtState, hpos, hc]

theorem debtState_succ_normal (p : Params) (months k : ℕ)
    (hpos : 0 < debtState p months k)
    (hc : ¬(k + 1 = months ∨
      debtState p months k ≤ p.payment - debtState p months k * p.monthlyRate)) :
    debtState p months (k + 1)
      = debtState p months k - (p.payment - debtState p months k * p.monthlyRate) := by
  simp [debtState, hpos, hc]

theorem debtState_succ_zero (p : Params) (months k : ℕ)
    (hz : ¬0 < debtState p months k) :
    debtState p months (k + 1) = debtState p months k := by
  simp [debtState, hz]

theorem depositPath_succ_payoff (p : Params) (months k : ℕ)
    (hpos : 0 < debtState p months k)
    (hc : k + 1 = months ∨
      debtState p months k ≤ p.payment - debtState p months k * p.monthlyRate) :
    depositPath p months (k + 1)
      = p.monthlyBudget - (debtState p months k + debtState p months k * p.monthlyRate) := by
  simp [depositPath, hpos, hc]

theorem depositPath_succ_normal (p : Params) (months k : ℕ)
    (hpos : 0 < debtState p months k)
    (hc : ¬(k + 1 = months ∨
      debtState p months k ≤ p.payment - debtState p months k * p.monthlyRate)) :
    depositPath p months (k + 1) = p.monthlyBudget - p.payment := by
  simp [depositPath, hpos, hc]

theorem depositPath_succ_zero (p : Params) (months k : ℕ)
    (hz : ¬0 < debtState p months k) :
    depositPath p months (k + 1) = p.monthlyBudget := by
  simp [depositPath, hz]

end Sched

/-- C1: for every call of `generateCashFlowSchedule` with `months ≥ 1` (and a
nonnegative loan amount, which `validateInputs` in `scripts/script.js`
guarantees for every call the program makes), the schedule satisfies:
`debtPath[0] = loanAmount`; each month `k + 1 ≤ months` with debt remaining
either forces a payoff — at the final month or when the principal reduction
`payment - debt*rate` would cover the remaining debt — leaving deposit
`budget - (debt + interest)` and zero debt, or reduces the debt by the
principal reduction with deposit `budget - payment`; once the debt is zero
the deposit is the full budget and the debt stays zero; every `debtPath`
entry is nonnegative; and `debtPath[months] = 0`. -/
theorem C1_generateCashFlowSchedule_correct (p : Sched.Params) (months : ℕ)
    (hm : 1 ≤ months) (hl : 0 ≤ p.loanAmount) :
    Sched.debtPath p months 0 = p.loanAmount
    ∧ (∀ k : ℕ, k < months →
        (0 < Sched.debtPath p months k →
          ((k + 1 = months ∨
              Sched.debtPath p months k
                ≤ p.payment - Sched.debtPath p months k * p.monthlyRate) →
            Sched.depositPath p months (k + 1)
              = p.monthlyBudget
                - (Sched.debtPath p months k
                    + Sched.debtPath p months k * p.monthlyRate)
            ∧ Sched.debtPath p months (k + 1) = 0)
          ∧ (¬(k + 1 = months ∨
              Sched.debtPath p months k
                ≤ p.payment - Sched.debtPath p months k * p.monthlyRate) →
            Sched.debtPath p months (k + 1)
              = Sched.debtPath p months k
                - (p.payment - Sched.debtPath p months k * p.monthlyRate)
            ∧ Sched.depositPath p months (k + 1) = p.monthlyBudget - p.payment))
        ∧ (Sched.debtPath p months k = 0 →
            Sched.depositPath p months (k + 1) = p.monthlyBudget
            ∧ Sched.debtPath p months (k + 1) = 0))
    ∧ (∀ i, 0 ≤ Sched.debtPath p months i)
    ∧ Sched.debtPath p months months = 0 := by
  have E := Sched.debtPath_eq_debtState p months hl
  refine ⟨rfl, ?_, ?_, Sched.debtPath_final_eq_zero p months hm⟩
  · intro k _
    constructor
    · intro hpos
      rw [E k] at hpos
      constructor
      · intro hc
        rw [E k] at hc
        rw [E k, E (k + 1)]
        exact ⟨Sched.depositPath_succ_payoff p months k hpos hc,
          Sched.debtState_succ_payoff p months k hpos hc⟩
      · intro hc
        rw [E k] at hc
        rw [E (k + 1), E k]
        exact ⟨Sched.debtState_succ_normal p months k hpos hc,
          Sched.depositPath_succ_normal p months k hpos hc⟩
    · intro hz
      rw [E k] at hz
      have hz2 : ¬0 < Sched.debtState p months k := by rw [hz]; exact lt_irrefl 0
      refine ⟨Sched.depositPath_succ_zero p months k hz2, ?_⟩
      rw [E (k + 1), Sched.debtState_succ_zero p months k hz2, hz]
  · intro i
    cases i with
    | zero => exact hl
    | succ i => exact le_max_left 0 _

/-- Witness for C1 at the concrete schedule
`generateCashFlowSchedule(1000, 0, 100, 150, 12)`. -/
theorem C1_generateCashFlowSchedule_correct_witness :
    (1 ≤ 12) ∧ ((0 : ℚ) ≤ 1000)
    ∧ Sched.debtPath ⟨1000, 0, 100, 150⟩ 12 12 = 0 :=
  ⟨by norm_num, by norm_num,
    (C1_generateCashFlowSchedule_correct ⟨1000, 0, 100, 150⟩ 12 (by norm_num)
      (by norm_num)).2.2.2⟩

namespace Legacy

theorem runPathAux_succ_eq (debt dep rets : ℕ → ℚ) (LTV A : ℚ) (s n : ℕ) :
    runPathAux debt dep rets LTV (bal A dep rets s) (s + 1) (n + 1)
      = if LTV < debt (s + 1) / bal A dep rets (s + 1)
        then (bal A dep rets (s + 1), some (s + 1))
        else runPathAux debt dep rets LTV (bal A dep rets (s + 1)) (s + 2) n := rfl

theorem runPathAux_none_iff (debt dep rets : ℕ → ℚ) (LTV A : ℚ) :
    ∀ n s, (runPathAux debt dep rets LTV (bal A dep rets s) (s + 1) n).2 = none
      ↔ ∀ m, s < m → m ≤ s + n → ¬ LTV < debt m / bal A dep rets m := by
  intro n
  induction n with
  | zero =>
    intro s
    simp only [runPathAux]
    constructor
    · intro _ m h1 h2; omega
    · intro _; trivial
  | succ n ih =>
    intro s
    rw [runPathAux_succ_eq]
    by_cases hb : LTV < debt (s + 1) / bal A dep rets (s + 1)
    · rw [if_pos hb]
      constructor
      · intro h; exact absurd h (by simp)
      · intro h; exact absurd hb (h (s + 1) (by omega) (by omega))
    · rw [if_neg hb, ih (s + 1)]
      constructor
      · intro h m h1 h2
        by_cases hm : m = s + 1
        · subst hm; exact hb
        · exact h m (by omega) (by omega)
      · intro h m h1 h2
        exact h m (by omega) (by omega)

theorem runPathAux_some_iff (debt dep rets : ℕ → ℚ) (LTV A : ℚ) :
    ∀ n s m, (runPathAux debt dep rets LTV (bal A dep rets s) (s + 1) n).2 = some m
      ↔ (s < m ∧ m ≤ s + n ∧ LTV < debt m / bal A dep rets m
          ∧ ∀ k, s < k → k < m → ¬ LTV < debt k / bal A dep rets k) := by
  intro n
  induction n with
  | zero =>
    intro s m
    simp only [runPathAux]
    constructor
    · intro h; exact absurd h (by simp)
    · intro h; omega
  | succ n ih =>
    intro s m
    rw [runPathAux_succ_eq]
    by_cases hb : LTV < debt (s + 1) / bal A dep rets (s + 1)
    · rw [if_pos hb]
      constructor
      · intro h
        have hm : m = s + 1 := by
          have := h
          simp only [Option.some.injEq] at this
          omega
        subst hm
        exact ⟨by omega, by omega, hb, fun k hk1 hk2 => by omega⟩
      · intro ⟨h1, h2, h3, h4⟩
        have hm : m = s + 1 := by
          by_contra hne
          exact (h4 (s + 1) (by omega) (by omega)) hb
        subst hm; rfl
    · rw [if_neg hb, ih (s + 1)]
      constructor
      · intro ⟨h1, h2, h3, h4⟩
        refine ⟨by omega, by omega, h3, ?_⟩
        intro k hk1 hk2
        by_cases hk : k = s + 1
        · subst hk; exact hb
        · exact h4 k (by omega) hk2
      · intro ⟨h1, h2, h3, h4⟩
        have hm : m ≠ s + 1 := by
          intro he; subst he; exact hb h3
        exact ⟨by omega, by omega, h3, fun k hk1 hk2 => h4 k (by omega) hk2⟩

theorem runPathAux_fst_of_some (debt dep rets : ℕ → ℚ) (LTV A : ℚ) :
    ∀ n s m, (runPathAux debt dep rets LTV (bal A dep rets s) (s + 1) n).2 = some m
      → (runPathAux debt dep rets LTV (bal A dep rets s) (s + 1) n).1
          = bal A dep rets m := by
  intro n
  induction n with
  | zero =>
    intro s m h
    exact absurd h (by simp [runPathAux])
  | succ n ih =>
    intro s m
    rw [runPathAux_succ_eq]
    by_cases hb : LTV < debt (s + 1) / bal A dep rets (s + 1)
    · rw [if_pos hb]
      intro h
      simp only [Option.some.injEq] at h
      rw [← h]
    · rw [if_neg hb]
      exact ih (s + 1) m

theorem runPathAux_fst_of_none (debt dep rets : ℕ → ℚ) (LTV A : ℚ) :
    ∀ n s, (runPathAux debt dep rets LTV (bal A dep rets s) (s + 1) n).2 = none
      → (runPathAux debt dep rets LTV (bal A dep rets s) (s + 1) n).1
          = bal A dep rets (s + n) := by
  intro n
  induction n with
  | zero => intro s _; rfl
  | succ n ih =>
    intro s
    rw [runPathAux_succ_eq]
    by_cases hb : LTV < debt (s + 1) / bal A dep rets (s + 1)
    · rw [if_pos hb]
      intro h; exact absurd h (by simp)
    · rw [if_neg hb]
      intro h
      have e : s + 1 + n = s + (n + 1) := by omega
      rw [ih (s + 1) h, e]

theorem code_breach_iff_specBreach (debt dep rets : ℕ → ℚ) (LTV A : ℚ) (m : ℕ)
    (hL : 0 ≤ LTV) (hdm : 0 ≤ debt m) :
    (LTV < debt m / bal A dep rets m) ↔ specBreach A debt dep rets LTV m := by
  unfold specBreach
  constructor
  · intro h
    refine ⟨?_, h⟩
    rcases lt_or_eq_of_le hdm with h0 | h0
    · exact h0
    · exfalso
      rw [← h0, zero_div] at h
      exact absurd h (not_lt.mpr hL)
  · intro h; exact h.2

end Legacy

/-- C3: for every simulated path of `runSimulationLegacy` (given the schedule
debt path, deposit path and the drawn return factors), and for every month
`m` in `1 .. months`: the path is ruined at `m` exactly when `debtPath[m] > 0`
and `debtPath[m]` divided by the updated balance strictly exceeds
`marginCallLTV`, and `m` is the first such month; a ruined path performs no
further balance updates (its final assets are the month-`m` balance) and
contributes no terminal wealth; a path that never breaches survives to the
horizon and contributes its real terminal wealth.  Hypotheses: the threshold
is nonnegative (guaranteed by `validateInputs` for every run the program
makes) and the debt path entries for months `≥ 1` are nonnegative (an
unconditional invariant of `generateCashFlowSchedule`, whose entries are
clamped with `Math.max(0, ...)`). -/
theorem C3_ruin_margin_call_characterization (E L LTV infl : ℚ)
    (debt dep rets : ℕ → ℚ) (years months : ℕ)
    (hL : 0 ≤ LTV) (hd : ∀ k, 1 ≤ k → 0 ≤ debt k) :
    (∀ m, (Legacy.runPath E L debt dep rets LTV months).2 = some m ↔
      (1 ≤ m ∧ m ≤ months
        ∧ Legacy.specBreach (Legacy.initialAssets E L) debt dep rets LTV m
        ∧ ∀ k, 1 ≤ k → k < m →
            ¬ Legacy.specBreach (Legacy.initialAssets E L) debt dep rets LTV k))
    ∧ (∀ m, (Legacy.runPath E L debt dep rets LTV months).2 = some m →
        (Legacy.runPath E L debt dep rets LTV months).1
          = Legacy.bal (Legacy.initialAssets E L) dep rets m
        ∧ Legacy.pathResult E L debt dep rets LTV infl years months = none)
    ∧ ((∀ m, 1 ≤ m → m ≤ months →
          ¬ Legacy.specBreach (Legacy.initialAssets E L) debt dep rets LTV m) →
        (Legacy.runPath E L debt dep rets LTV months).2 = none
        ∧ Legacy.pathResult E L debt dep rets LTV infl years months
            = some ((Legacy.bal (Legacy.initialAssets E L) dep rets months
                - debt months) / (1 + infl) ^ years)) := by
  set A := Legacy.initialAssets E L with hA
  have bridge : ∀ m, 1 ≤ m →
      ((LTV < debt m / Legacy.bal A dep rets m)
        ↔ Legacy.specBreach A debt dep rets LTV m) :=
    fun m hm => Legacy.code_breach_iff_specBreach debt dep rets LTV A m hL (hd m hm)
  have hsome : ∀ m, (Legacy.runPath E L debt dep rets LTV months).2 = some m ↔
      (0 < m ∧ m ≤ 0 + months ∧ LTV < debt m / Legacy.bal A dep rets m
        ∧ ∀ k, 0 < k → k < m → ¬ LTV < debt k / Legacy.bal A dep rets k) :=
    fun m => Legacy.runPathAux_some_iff debt dep rets LTV A months 0 m
  refine ⟨?_, ?_, ?_⟩
  · intro m
    rw [hsome m]
    constructor
    · rintro ⟨h1, h2, h3, h4⟩
      refine ⟨h1, by omega, (bridge m h1).mp h3, ?_⟩
      intro k hk1 hk2 hsb
      exact h4 k (by omega) hk2 hsb.2
    · rintro ⟨h1, h2, h3, h4⟩
      refine ⟨by omega, by omega, h3.2, ?_⟩
      intro k hk1 hk2 hcb
      exact h4 k (by omega) hk2 ((bridge k (by omega)).mp hcb)
  · intro m h
    refine ⟨Legacy.runPathAux_fst_of_some debt dep rets LTV A months 0 m h, ?_⟩
    have heq : Legacy.runPath E L debt dep rets LTV months
        = ((Legacy.runPath E L debt dep rets LTV months).1, some m) := by
      rw [← h]
    unfold Legacy.pathResult
    rw [heq]
  · intro hnone
    have h0 : ∀ m, 0 < m → m ≤ 0 + months →
        ¬ LTV < debt m / Legacy.bal A dep rets m := by
      intro m h1 h2 hcb
      exact hnone m (by omega) (by omega) ((bridge m (by omega)).mp hcb)
    have hn : (Legacy.runPath E L debt dep rets LTV months).2 = none :=
      (Legacy.runPathAux_none_iff debt dep rets LTV A months 0).mpr h0
    have hfst := Legacy.runPathAux_fst_of_none debt dep rets LTV A months 0 hn
    rw [Nat.zero_add months] at hfst
    refine ⟨hn, ?_⟩
    have heq : Legacy.runPath E L debt dep rets LTV months
        = (Legacy.bal A dep rets months, (none : Option ℕ)) := by
      rw [← hfst, ← hn]
      rfl
    unfold Legacy.pathResult
    rw [heq]

/-- Witness for C3 at a concrete input: benchmark-style schedule with no
debt, unit return factors, threshold `3/5`; the path survives. -/
theorem C3_ruin_margin_call_characterization_witness :
    ((0 : ℚ) ≤ 3 / 5)
    ∧ (∀ k, 1 ≤ k → (0 : ℚ) ≤ Sched.debtPath ⟨0, 0, 0, 0⟩ 1 k)
    ∧ (Legacy.runPath 1 0 (Sched.debtPath ⟨0, 0, 0, 0⟩ 1)
        (fun _ => 0) (fun _ => 1) (3 / 5) 1).2 = none := by
  refine ⟨by norm_num, fun k hk => Sched.debtPath_nonneg_of_one_le _ 1 k hk, ?_⟩
  refine ((C3_ruin_margin_call_characterization 1 0 (3 / 5) 0
      (Sched.debtPath ⟨0, 0, 0, 0⟩ 1) (fun _ => 0) (fun _ => 1) 1 1
      (by norm_num)
      (fun k hk => Sched.debtPath_nonneg_of_one_le _ 1 k hk)).2.2 ?_).1
  intro m h1 h2
  have hm : m = 1 := by omega
  subst hm
  norm_num [Legacy.specBreach, Sched.debtPath, Sched.debtState]

/-- Counterexample for C4: at loan 100 and equity 50, the generated
`depositPath[0]` is `0` while `runSimulationLegacy` initialises the path
balance to `initialEquity + loan = 150`, so the balance is not initialised to
`depositPath[0]`, and `depositPath[0]` is not the (non-zero) initial
capital. -/
theorem C4_counterexample :
    Sched.depositPath ⟨100, 0, 0, 0⟩ 1 0 = 0
    ∧ Legacy.initialAssets 50 100 = 150
    ∧ Sched.depositPath ⟨100, 0, 0, 0⟩ 1 0 ≠ Legacy.initialAssets 50 100 := by
  refine ⟨rfl, by norm_num [Legacy.initialAssets], ?_⟩
  norm_num [Sched.depositPath, Legacy.initialAssets]

/-- C4 (amended): for every generated schedule `depositPath[0] = 0` — the
initial capital is not represented as a deposit — and the legacy Path
Simulator initialises each path's balance to `initialEquity + loanAmount`
(the initial asset value), to which the month-1 return factor is then
applied: the month-1 balance is `(initialEquity + loan) * ret₁ + deposit₁`. -/
theorem C4_initial_deposit_and_balance (p : Sched.Params) (months : ℕ)
    (e l : ℚ) (dep rets : ℕ → ℚ) :
    Sched.depositPath p months 0 = 0
    ∧ Legacy.initialAssets e l = e + l
    ∧ Legacy.bal (Legacy.initialAssets e l) dep rets 0 = e + l
    ∧ Legacy.bal (Legacy.initialAssets e l) dep rets 1
        = (e + l) * rets 1 + dep 1 :=
  ⟨rfl, rfl, rfl, rfl⟩

/-- C2: evaluation of the write trace of `runSimulation` at two concrete
inputs on which the capacity contract fails.  First, with a baseline path
count of 800000 and no leveraged strategies the full output (800010 values)
exceeds the 800000-element capacity, yet the benchmark wealth loop silently
drops the last 10 values and the final bounds check still reports status 0
(success).  The same happens with a baseline count of 500 and one strategy
with 800000 survivors.  Second, with a baseline count of 799990 and one
leveraged strategy, the 8 scenario scalar writes land at indices
800000..800007, at and beyond the buffer capacity — a memory overrun that
the guarded array loops do not prevent — before the final check sets the
error status. -/
theorem C2_buffer_contract_violations :
    ((BufModel.runSimulationWrites 800000 []).1.truncated = true
      ∧ (BufModel.runSimulationWrites 800000 []).2 = 0)
    ∧ ((BufModel.runSimulationWrites 500 [800000]).1.truncated = true
      ∧ (BufModel.runSimulationWrites 500 [800000]).2 = 0)
    ∧ ((BufModel.runSimulationWrites 799990 [0]).1.overrun = true
      ∧ (BufModel.runSimulationWrites 799990 [0]).2 = 1) := by
  refine ⟨⟨?_, ?_⟩, ⟨?_, ?_⟩, ?_, ?_⟩ <;> decide

/-- C7: at `simCount = 0` the benchmark scenario of `calculateBenchmark` has
an empty results array, yet the median read targets index
`i32(0 * 0.5) = 0`, which is out of bounds of the empty array (the model
returns `none` for the attempted read); moreover the scenario's survival
rate field is the constant 100, not the empty-outcome 0 the specification
requires. -/
theorem C7_pathcount_zero_out_of_bounds :
    Engine.benchWealths 1 1 0 1 12 (fun _ _ => 1) 0 = []
    ∧ Engine.benchMedianRead
        (Engine.sortQ (Engine.benchWealths 1 1 0 1 12 (fun _ _ => 1) 0)) 0 = none
    ∧ (Engine.benchBlock 1 1 0 1 12 (fun _ _ => 1) 0).getD 2 0 = 100
    ∧ ((100 : ℚ) ≠ 0) := by
  refine ⟨rfl, rfl, rfl, by norm_num⟩

theorem BufModel.status_def (bc : ℕ) (scs : List ℕ) :
    (BufModel.runSimulationWrites bc scs).2
      = if BufModel.CAP < (BufModel.runSimulationWrites bc scs).1.idx then 1 else 0 := rfl

/-- C6: a leveraged strategy with zero survivors (and a positive path count)
still produces a valid success outcome: the scenario block written is
`[paymentAmount, surplusAmount, 0, 0, 0, 0, 0, 0]` — survival rate, median,
p90 and expected wealth all zero and an empty wealth sequence — and, as long
as the run stays within the output capacity, the status header remains 0
(success). -/
theorem C6_zero_survivors_success (payment surplus loanAmount initialAssets rate LTV infl : ℚ)
    (years months simCount : ℕ) (ret : ℕ → ℕ → ℚ)
    (hpos : 0 < simCount)
    (h : Engine.levSurvivorWealths initialAssets loanAmount payment surplus rate LTV infl
        years months ret simCount = [])
    (bc : ℕ) (scs : List ℕ)
    (hcap : (BufModel.runSimulationWrites bc scs).1.idx ≤ BufModel.CAP) :
    Engine.calculateLeveragedStrategy loanAmount initialAssets payment surplus rate LTV infl
        years months ret simCount
      = [payment, surplus, 0, 0, 0, 0, 0, 0]
    ∧ (BufModel.runSimulationWrites bc scs).2 = 0 := by
  constructor
  · unfold Engine.calculateLeveragedStrategy
    rw [h]
    simp [Engine.levBlock]
  · rw [BufModel.status_def]
    exact if_neg (not_lt.mpr hcap)

/-- Witness for C6 at a concrete input on which every path is ruined. -/
theorem C6_zero_survivors_success_witness :
    (0 < 1)
    ∧ Engine.levSurvivorWealths 1 1 0 0 0 0 0 1 1 (fun _ _ => 1) 1 = []
    ∧ (BufModel.runSimulationWrites 0 []).1.idx ≤ BufModel.CAP
    ∧ Engine.calculateLeveragedStrategy 1 1 0 0 0 0 0 1 1 (fun _ _ => 1) 1
        = [0, 0, 0, 0, 0, 0, 0, 0] := by
  have h : Engine.levSurvivorWealths 1 1 0 0 0 0 0 1 1 (fun _ _ => 1) 1 = [] := by
    norm_num [Engine.levSurvivorWealths, Engine.levPath, List.range_succ,
      List.filterMap_cons]
  exact ⟨by norm_num, h, by decide,
    (C6_zero_survivors_success 0 0 1 1 0 0 0 1 1 1 (fun _ _ => 1) (by norm_num) h 0 []
      (by decide)).1⟩

/-- C10: for every input — any return draws, any volatility or growth, and
with no margin-call threshold even consulted — the benchmark scenario block
reports survival rate 100 (field 2) and a wealth-array length equal to the
full baseline path count (field 7), and actually carries one wealth value
per simulated path: the benchmark loop has no ruin check of any kind. -/
theorem C10_benchmark_always_survives (e b infl : ℚ) (years months simCount : ℕ)
    (ret : ℕ → ℕ → ℚ) :
    (Engine.benchBlock e b infl years months ret simCount).getD 2 0 = 100
    ∧ (Engine.benchBlock e b infl years months ret simCount).getD 7 0 = (simCount : ℚ)
    ∧ (Engine.benchWealths e b infl years months ret simCount).length = simCount
    ∧ (Engine.benchBlock e b infl years months ret simCount).length = 8 + simCount := by
  refine ⟨rfl, rfl, ?_, ?_⟩
  · simp [Engine.benchWealths]
  · simp [Engine.benchBlock, Engine.sortQ, Engine.benchWealths,
      List.length_insertionSort]
    omega

/-- C8: in the aggregation post-processing, every strategy's
`benchmarkPercentDiff` equals
`(expected - benchmarkExpected) / benchmarkExpected * 100` when the
benchmark expected wealth is strictly positive, and keeps the defined
default `0` set at unmarshalling time otherwise. -/
theorem C8_benchmark_percent_diff (be : ℚ) (es : List ℚ) (i : ℕ)
    (hi : i < es.length) :
    ((Agg.postProcess be (es.map Agg.initStrategy)).getD i ⟨0, 0⟩).benchmarkPercentDiff
      = if 0 < be then (es.getD i 0 - be) / be * 100 else 0 := by
  unfold Agg.postProcess
  by_cases hbe : 0 < be
  · rw [if_pos hbe, if_pos hbe, List.map_map]
    have hi2 : i < (es.map
        ((fun s => { s with benchmarkPercentDiff :=
            (s.expectedWealth - be) / be * 100 }) ∘ Agg.initStrategy)).length := by
      simpa using hi
    rw [List.getD_eq_getElem _ _ hi2, List.getD_eq_getElem _ _ hi, List.getElem_map]
    rfl
  · rw [if_neg hbe, if_neg hbe]
    have hi2 : i < (es.map Agg.initStrategy).length := by simpa using hi
    rw [List.getD_eq_getElem _ _ hi2, List.getElem_map]
    rfl

/-- Witness for C8 at benchmark expected 2 and strategy expecteds `[5, 7]`. -/
theorem C8_benchmark_percent_diff_witness :
    (0 < [(5 : ℚ), 7].length)
    ∧ ((Agg.postProcess 2 ([(5 : ℚ), 7].map Agg.initStrategy)).getD 0
          ⟨0, 0⟩).benchmarkPercentDiff
      = if 0 < (2 : ℚ) then ([(5 : ℚ), 7].getD 0 0 - 2) / 2 * 100 else 0 :=
  ⟨by norm_num, C8_benchmark_percent_diff 2 [5, 7] 0 (by norm_num)⟩

theorem getD_append_add (pre l : List ℚ) (k : ℕ) :
    (pre ++ l).getD (pre.length + k) 0 = l.getD k 0 := by
  rw [List.getD_append_right pre l 0 (pre.length + k) (Nat.le_add_right _ _),
    Nat.add_sub_cancel_left]

theorem rangeMap_getD (w : List ℚ) :
    ((List.range w.length).map fun i => w.getD i 0) = w := by
  apply List.ext_getElem
  · simp
  · intro i h1 h2
    rw [List.getElem_map, List.getElem_range, List.getD_eq_getElem w 0 h2]

/-- C9: binary-protocol round trip.  Writing a request's scalar fields into
the fixed-offset input buffer and reading them back at the same offsets
reproduces the request exactly; and writing a scenario block — the seven
scalars, the wealth count, then the wealth values — anywhere into the output
layout and parsing it with `readScenario` reproduces the same survival rate,
percentiles and wealth array, in order, with `nextPos` landing just past the
block. -/
theorem C9_binary_protocol_roundtrip (r : Protocol.SimRequest) (pre : List ℚ)
    (payment surplus survival median p90 expected : ℚ) (wealth : List ℚ) :
    Protocol.readInputBuffer (Protocol.writeInputBuffer r) = r
    ∧ (Protocol.readScenario
        (pre ++ Protocol.scenarioBlockList payment surplus survival median p90 expected wealth)
        pre.length).1
      = ⟨payment, surplus, survival, median, p90, expected, 0, wealth⟩
    ∧ (Protocol.readScenario
        (pre ++ Protocol.scenarioBlockList payment surplus survival median p90 expected wealth)
        pre.length).2
      = pre.length + 8 + wealth.length := by
  have hb : ∀ k,
      (pre ++ Protocol.scenarioBlockList payment surplus survival median p90 expected
        wealth).getD (pre.length + k) 0
      = (Protocol.scenarioBlockList payment surplus survival median p90 expected
          wealth).getD k 0 :=
    fun k => getD_append_add _ _ _
  have hB8 : ∀ i,
      (Protocol.scenarioBlockList payment surplus survival median p90 expected
        wealth).getD (8 + i) 0 = wealth.getD i 0 := by
    intro i
    unfold Protocol.scenarioBlockList
    rw [List.getD_append_right _ _ _ _ (by simp)]
    simp
  have hlen : Protocol.scenarioLen
      (pre ++ Protocol.scenarioBlockList payment surplus survival median p90 expected wealth)
      pre.length = wealth.length := by
    unfold Protocol.scenarioLen
    rw [hb 7]
    show (Int.floor ((wealth.length : ℚ))).toNat = wealth.length
    rw [Int.floor_natCast, Int.toNat_natCast]
  have hmap : ∀ i,
      (pre ++ Protocol.scenarioBlockList payment surplus survival median p90 expected
        wealth).getD (pre.length + 8 + i) 0 = wealth.getD i 0 := by
    intro i
    rw [Nat.add_assoc, hb (8 + i)]
    exact hB8 i
  have hread : Protocol.readScenario
      (pre ++ Protocol.scenarioBlockList payment surplus survival median p90 expected wealth)
      pre.length
      = (⟨payment, surplus, survival, median, p90, expected, 0, wealth⟩,
          pre.length + 8 + wealth.length) := by
    unfold Protocol.readScenario
    rw [hlen]
    simp only [Prod.mk.injEq, Protocol.ScenarioData.mk.injEq]
    refine ⟨⟨hb 0, hb 1, hb 2, hb 3, hb 4, hb 5, hb 6, ?_⟩, trivial⟩
    calc ((List.range wealth.length).map fun i =>
            (pre ++ Protocol.scenarioBlockList payment surplus survival median p90 expected
              wealth).getD (pre.length + 8 + i) 0)
        = (List.range wealth.length).map fun i => wealth.getD i 0 :=
          List.map_congr_left fun i _ => hmap i
      _ = wealth := rangeMap_getD wealth
  exact ⟨rfl, by rw [hread], by rw [hread]⟩

/-- C5: evaluation of `calculateLeveragedStrategy` at a concrete input with
2 paths of which exactly one survives with real wealth 9.  Because the
source sorts the entire `simCount`-sized results array — zero padding
included — and then indexes, the reported median, p90 and expected wealth
are all 0 (drawn from the padding), and even the written wealth array is
`[0]`, while the ascending survivor sequence is `[9]` and its element at
index `i32(1 * 0.5) = 0` is 9: the outcome contradicts the specified
percentile computation. -/
theorem C5_median_reads_zero_padding :
    Engine.levSurvivorWealths 1 1 0 0 0 (1 / 2) 0 1 1
        (fun s _ => if s = 0 then 10 else 1) 2 = [9]
    ∧ Engine.calculateLeveragedStrategy 1 1 0 0 0 (1 / 2) 0 1 1
        (fun s _ => if s = 0 then 10 else 1) 2
      = [0, 0, 50, 0, 0, 0, 0, 1, 0]
    ∧ (Engine.sortQ [9]).getD (Engine.pctIdx 1 1 2) 0 = 9
    ∧ ((0 : ℚ) ≠ 9) := by
  have hsurv : Engine.levSurvivorWealths 1 1 0 0 0 (1 / 2) 0 1 1
      (fun s _ => if s = 0 then 10 else 1) 2 = [9] := by
    norm_num [Engine.levSurvivorWealths, Engine.levPath, List.range_succ,
      List.filterMap_cons]
  refine ⟨hsurv, ?_, rfl, by norm_num⟩
  unfold Engine.calculateLeveragedStrategy
  rw [hsurv]
  norm_num [Engine.levBlock, Engine.levResultsArray, Engine.sortQ, Engine.pctIdx,
    List.insertionSort, List.orderedInsert]
